import Mathlib

/-!
Verification of the layered configuration dictionary implemented in
`src/ploomber/env/EnvDict.py`.

Two embeddings of the Python code are developed:

* a *pure value model* (`PVal`/`PDict`): nested Python values as trees.  It
  embeds the construction pipeline (`EnvDict.__init__` after
  `load_from_source`), `raw_preprocess`, the default-placeholder merge and
  item lookup (`EnvDict._getitem`).  External collaborators that live in
  repository modules not present under `src/` (the `EnvironmentExpander`,
  the key validator, `FrozenJSON`) are modelled from the spec and marked as
  such in their doc comments; process-level facts (current user, working
  directory, filesystem contents, module resolution) are explicit
  parameters.

* a *heap model* (`HVal`/`HDict`/`Heap`): Python dictionaries as mutable
  objects referenced by address.  This captures Python's reference
  semantics, which is what the mutation/override operations
  (`_replace_value`, `_inplace_replace_flatten_key`, `_replace_flatten_key`,
  `__setitem__`) act on, and in particular the behaviour of the shallow
  `copy(self)` used by `_replace_flatten_key`.
-/

namespace EnvDictModel

/-- Python exceptions raised by the code under `src/`.  The spec's taxonomy
maps onto these as follows: `KeyNotFound` is Python's `KeyError`,
`ConfigError` and `InvalidArgument` are `ValueError` (distinguished by their
messages), schema validation failures are `validationError`
(the validator itself is an external collaborator). -/
inductive PyErr where
  | keyError (msg : String)
  | indexError
  | typeError (msg : String)
  | valueError (msg : String)
  | validationError
deriving DecidableEq, Repr

/-- The literal placeholder token `{{here}}` (braces escaped). -/
def herePlaceholder : String := "\x7b\x7bhere\x7d\x7d"

mutual
/-- A Python value as stored in the raw / expanded mappings: strings,
integers, booleans, `None`, `pathlib.Path` objects (`ppath`), nested
dictionaries and lists. -/
inductive PVal where
  | pstr (s : String)
  | pint (n : Int)
  | pbool (b : Bool)
  | pnone
  | ppath (s : String)
  | pdict (d : PDict)
  | plist (l : PList)
deriving DecidableEq, Repr

/-- A Python dictionary with string keys: an ordered association list
(Python dictionaries preserve insertion order and have unique keys). -/
inductive PDict where
  | nil
  | cons (k : String) (v : PVal) (rest : PDict)
deriving DecidableEq, Repr

/-- A Python list of values. -/
inductive PList where
  | nil
  | cons (v : PVal) (rest : PList)
deriving DecidableEq, Repr
end

/-- `d.get(k)` / `d[k]` lookup on a Python dict (first occurrence). -/
def pGet : PDict → String → Option PVal
  | .nil, _ => none
  | .cons k v rest, key => if k = key then some v else pGet rest key

/-- `k in d` membership test on a Python dict. -/
def pHasKey (d : PDict) (k : String) : Bool :=
  (pGet d k).isSome

/-- The ordered list of keys of a Python dict. -/
def pKeys : PDict → List String
  | .nil => []
  | .cons k _ rest => k :: pKeys rest

/-- `d[k] = v` on a Python dict: replaces the value at the first occurrence
of `k`, preserving position, or appends a new entry at the end. -/
def pSet : PDict → String → PVal → PDict
  | .nil, key, v => .cons key v .nil
  | .cons k w rest, key, v =>
      if k = key then .cons k v rest else .cons k w (pSet rest key v)

/-- `{**a, **b}`: each entry of `b` assigned into `a` in order, so keys of
`b` override (Python dict merge). -/
def pyMerge (a : PDict) : PDict → PDict
  | .nil => a
  | .cons k v rest => pyMerge (pSet a k v) rest

/-- Python truthiness of a value (`if module:`): `None`, `0`, `False`, the
empty string, empty dict and empty list are falsy. -/
def pyTruthy : PVal → Bool
  | .pstr s => s ≠ ""
  | .pint n => n ≠ 0
  | .pbool b => b
  | .pnone => false
  | .ppath _ => true
  | .pdict .nil => false
  | .pdict _ => true
  | .plist .nil => false
  | .plist _ => true

/-- Truthiness of the result of `d.get(k)` (absent behaves like `None`). -/
def pyTruthyOpt : Option PVal → Bool
  | none => false
  | some v => pyTruthy v

/-- `pathlib.Path(p).parent` for POSIX path strings: drops the last
component; a path with no separator has parent `.`, a direct child of the
root has parent `/`. -/
def parentDir (p : String) : String :=
  match (p.toList.reverse.dropWhile (fun c => c ≠ '/')) with
  | [] => "."
  | ['/'] => "/"
  | '/' :: more => String.mk more.reverse
  | _ => "."

/-- Lookup in a placeholder table (name → resolved string value). -/
def lookupStr : List (String × String) → String → Option String
  | [], _ => none
  | (k, v) :: rest, key => if k = key then some v else lookupStr rest key

/-- Modelled from the spec: the token-substitution scan of the
`EnvironmentExpander` (repository module `ploomber/env/expand.py`, not under
`src/`): scan a string for `\x7b\x7bidentifier\x7d\x7d` tokens and replace
each by its table value; an unknown token is an error carrying the token
name.  The first argument is the table, the `Option` argument is `none`
while scanning literal text and `some acc` while inside a token
(accumulated characters in reverse). -/
def substGo (tbl : List (String × String)) :
    Option (List Char) → List Char → Except String String
  | none, [] => .ok ""
  | none, '{' :: '{' :: rest => substGo tbl (some []) rest
  | none, c :: rest =>
      match substGo tbl none rest with
      | .ok s => .ok (String.mk (c :: s.toList))
      | .error e => .error e
  | some acc, [] => .ok (String.mk ('{' :: '{' :: acc.reverse))
  | some acc, '}' :: '}' :: rest =>
      match lookupStr tbl (String.mk acc.reverse) with
      | some v =>
          match substGo tbl none rest with
          | .ok s => .ok (v ++ s)
          | .error e => .error e
      | none => .error (String.mk acc.reverse)
  | some acc, c :: rest => substGo tbl (some (c :: acc)) rest

/-- Substitute every placeholder token of `s` using table `tbl`. -/
def expandString (tbl : List (String × String)) (s : String) :
    Except String String :=
  substGo tbl none s.toList

/-- The process/environment facts and external collaborators that
`EnvDict.__init__` and `raw_preprocess` consult, made explicit: the current
user name and working directory (read by the expander), the result of
`default.find_root_recursively` (repository module not under `src/`),
the black-box key validator `validate.raw_data_keys` (repository module not
under `src/`; the spec treats it as a black box failing with
`ValidationError`), filesystem existence / is-file tests
(`Path.exists` / `Path.is_file`) and module resolution
(`importlib.util.find_spec`, returning the origin file of the module when
found). -/
structure Params where
  userName : String
  cwdVal : String
  rootOpt : Option String
  validateOk : PDict → Bool
  fsExists : String → Bool
  fsIsFile : String → Bool
  findSpec : String → Option String

/-- Modelled from the spec: the placeholder table of the
`EnvironmentExpander` (repository module `ploomber/env/expand.py`, not under
`src/`): built-ins `user` and `cwd` always; `root` only when a project root
is discoverable; `here` only when a base directory is available. -/
def buildTable (ps : Params) (pathToHere : Option String) :
    List (String × String) :=
  [("user", ps.userName), ("cwd", ps.cwdVal)]
    ++ (match ps.rootOpt with
        | some r => [("root", r)]
        | none => [])
    ++ (match pathToHere with
        | some h => [("here", h)]
        | none => [])

mutual
/-- Modelled from the spec: `EnvironmentExpander.expand_raw_value`
(repository module not under `src/`): a string scalar has its placeholder
tokens substituted (an unknown token is a fatal error naming the token and
the key path), mappings and sequences recurse, any other scalar passes
through unchanged. -/
def expandRawValueP (tbl : List (String × String)) :
    PVal → List String → Except PyErr PVal
  | .pstr s, ks =>
      match expandString tbl s with
      | .ok s2 => .ok (.pstr s2)
      | .error tok =>
          .error (.valueError ("Error resolving placeholder " ++ tok
            ++ " at key path " ++ String.intercalate "." ks))
  | .pdict d, ks =>
      match expandRawDictP tbl d ks with
      | .ok d2 => .ok (.pdict d2)
      | .error e => .error e
  | .plist l, ks =>
      match expandRawListP tbl l ks with
      | .ok l2 => .ok (.plist l2)
      | .error e => .error e
  | v, _ => .ok v

/-- Modelled from the spec: expansion of a mapping, each value expanded
under its key path. -/
def expandRawDictP (tbl : List (String × String)) :
    PDict → List String → Except PyErr PDict
  | .nil, _ => .ok .nil
  | .cons k v rest, ks =>
      match expandRawValueP tbl v (ks ++ [k]) with
      | .ok v2 =>
          match expandRawDictP tbl rest ks with
          | .ok rest2 => .ok (.cons k v2 rest2)
          | .error e => .error e
      | .error e => .error e

/-- Modelled from the spec: expansion of a sequence, element by element. -/
def expandRawListP (tbl : List (String × String)) :
    PList → List String → Except PyErr PList
  | .nil, _ => .ok .nil
  | .cons v rest, ks =>
      match expandRawValueP tbl v ks with
      | .ok v2 =>
          match expandRawListP tbl rest ks with
          | .ok rest2 => .ok (.cons v2 rest2)
          | .error e => .error e
      | .error e => .error e
end

/-- `Path(module)` accepts strings and path objects; anything else raises
`TypeError` (`argument should be a str or an os.PathLike object`). -/
def asPathStr : PVal → Option String
  | .pstr s => some s
  | .ppath s => some s
  | _ => none

/-- The filesystem / module-resolution branch of `raw_preprocess`
(`EnvDict.py` lines 339-364): an existing path must be a directory; a
non-existing token is looked up with `importlib.util.find_spec`, and the
parent directory of the found module's origin file is used. -/
def resolveModuleToken (ps : Params) (s : String) : Except PyErr PVal :=
  if ps.fsExists s then
    if ps.fsIsFile s then
      .error (.valueError ("Could not resolve _module " ++ s
        ++ ", expected a module or a directory but got a file"))
    else .ok (.ppath s)
  else
    match ps.findSpec s with
    | none =>
        .error (.valueError ("Could not resolve _module " ++ s
          ++ ", it is not a valid module nor a directory"))
    | some origin => .ok (.ppath (parentDir origin))

/-- `raw_preprocess(raw, path_to_raw)` (`EnvDict.py` lines 305-366): if the
`_module` key is absent or falsy the result is the empty dict; the literal
`\x7b\x7bhere\x7d\x7d` token resolves to the parent directory of
`path_to_raw` and is an error when `path_to_raw` is `None`; any other token
goes through `resolveModuleToken`. -/
def rawPreprocess (ps : Params) (raw : PDict) (pathToRaw : Option String) :
    Except PyErr PDict :=
  let module := pGet raw "_module"
  if pyTruthyOpt module then
    if pGet raw "_module" = some (.pstr herePlaceholder) then
      match pathToRaw with
      | some p => .ok (.cons "_module" (.ppath (parentDir p)) .nil)
      | none =>
          .error (.valueError
            "_module cannot be the here placeholder if not loaded from a file")
    else
      match module with
      | some m =>
          match asPathStr m with
          | some s =>
              match resolveModuleToken ps s with
              | .ok v => .ok (.cons "_module" v .nil)
              | .error e => .error e
          | none =>
              .error (.typeError
                "argument should be a str or an os.PathLike object")
      | none => .ok .nil
  else .ok .nil

/-- `EnvDict._default_dict(include_here)` (`EnvDict.py` lines 96-109):
`user` and `cwd` always, `root` only when `default.find_root_recursively()`
found a project root, `here` only when requested; the values are the
corresponding placeholder tokens, resolved later by the expander. -/
def defaultDict (rootFound : Bool) (includeHere : Bool) : PDict :=
  PDict.cons "user" (.pstr "\x7b\x7buser\x7d\x7d")
    (PDict.cons "cwd" (.pstr "\x7b\x7bcwd\x7d\x7d")
      ((if rootFound
        then PDict.cons "root" (.pstr "\x7b\x7broot\x7d\x7d")
        else id)
       ((if includeHere
         then PDict.cons "here" (.pstr "\x7b\x7bhere\x7d\x7d")
         else id)
        PDict.nil)))

/-- The merged raw data of `EnvDict.__init__` (lines 65-70):
`{**defaults, **raw}`, default placeholders first, raw keys second so an
explicit raw key overrides the built-in of the same name. -/
def mergedRawData (raw : PDict) (rootFound : Bool) (includeHere : Bool) :
    PDict :=
  pyMerge (defaultDict rootFound includeHere) raw

/-- `Path(p).resolve()` for the caller-supplied `path_to_here`; modelled as
the identity (the model works with already-absolute POSIX paths and no
symlinks). -/
def resolvePath (p : String) : String := p

/-- The value-level state of a constructed `EnvDict`: the preprocessed
mapping (`self._preprocessed`) and the expanded data (`self._data`). -/
structure EnvSt where
  preprocessed : PDict
  data : PDict
deriving DecidableEq, Repr

/-- `EnvDict.__init__(source, path_to_here)` (lines 59-94) after
`load_from_source` has produced the raw mapping and the optional source-file
path: merge the default placeholders (raw wins), validate the merged raw
mapping, run `raw_preprocess` on it, compute the effective `path_to_here`
(the caller's value resolved, else the source file's parent, else none) and
expand every value. -/
def envInit (ps : Params) (raw : PDict) (pathToEnv : Option String)
    (pathToHere0 : Option String) : Except PyErr EnvSt :=
  let rawData := mergedRawData raw ps.rootOpt.isSome pathToHere0.isSome
  if ps.validateOk rawData then
    match rawPreprocess ps rawData pathToEnv with
    | .error e => .error e
    | .ok pre =>
        let pathToHere : Option String :=
          match pathToHere0 with
          | none => pathToEnv.map parentDir
          | some p => some (resolvePath p)
        match expandRawDictP (buildTable ps pathToHere) rawData [] with
        | .error e => .error e
        | .ok data => .ok ⟨pre, data⟩
  else .error .validationError

/-- Modelled from the spec: `FrozenJSON` (repository module
`ploomber/env/FrozenJSON.py`, not under `src/`) wraps looked-up values for
read-only attribute-and-index navigation without exposing mutable internal
references. -/
structure FrozenJSON where
  wrapped : PVal
deriving DecidableEq, Repr

/-- Modelled from the spec: indexing into a wrapped value navigates nested
mappings, returning the wrapped entry. -/
def FrozenJSON.getKey (f : FrozenJSON) (k : String) :
    Except PyErr FrozenJSON :=
  match f.wrapped with
  | .pdict d =>
      match pGet d k with
      | some v => .ok ⟨v⟩
      | none => .error (.keyError k)
  | _ => .error (.typeError "object is not subscriptable")

mutual
/-- Modelled from the spec: the bounded rendering used for diagnostics
(Python's `reprlib.Repr`, standard library): nesting beyond the depth
budget and dict/list entries beyond four are elided. -/
def reprValT (depth : Nat) : PVal → String
  | .pstr s => s
  | .pint n => toString n
  | .pbool b => toString b
  | .pnone => "None"
  | .ppath s => "Path(" ++ s ++ ")"
  | .pdict d =>
      match depth with
      | 0 => "\x7b...\x7d"
      | depth2 + 1 => "\x7b" ++ reprDictT depth2 d 4 ++ "\x7d"
  | .plist l =>
      match depth with
      | 0 => "[...]"
      | depth2 + 1 => "[" ++ reprListT depth2 l 4 ++ "]"

/-- Entries of a dict, at most `budget` of them shown. -/
def reprDictT (depth : Nat) : PDict → Nat → String
  | .nil, _ => ""
  | .cons _ _ _, 0 => "..."
  | .cons k v rest, budget + 1 =>
      k ++ ": " ++ reprValT depth v
        ++ (match rest with
            | .nil => ""
            | _ => ", " ++ reprDictT depth rest budget)

/-- Elements of a list, at most `budget` of them shown. -/
def reprListT (depth : Nat) : PList → Nat → String
  | .nil, _ => ""
  | .cons _ _, 0 => "..."
  | .cons v rest, budget + 1 =>
      reprValT depth v
        ++ (match rest with
            | .nil => ""
            | _ => ", " ++ reprListT depth rest budget)
end

/-- `EnvDict.__repr__` (lines 168-170): the class name around the truncated
rendering of `self._data` (`Repr().repr_dict(self._data, level=2)`). -/
def envDictRepr (data : PDict) : String :=
  "EnvDict(\x7b" ++ reprDictT 1 data 4 ++ "\x7d)"

/-- `EnvDict.__getitem__` / `EnvDict._getitem` (lines 139-153): the
preprocessed mapping is consulted first, then the expanded data; a key
absent from both raises `KeyError` whose message embeds the truncated
representation of the dictionary. -/
def envGetItem (st : EnvSt) (key : String) : Except PyErr FrozenJSON :=
  match pGet st.preprocessed key with
  | some v => .ok ⟨v⟩
  | none =>
      match pGet st.data key with
      | some v => .ok ⟨v⟩
      | none =>
          .error (.keyError (envDictRepr st.data
            ++ " object has no key " ++ key))

/-! ## Heap model

Python dictionaries are mutable objects passed by reference.  The override
operations of `EnvDict` mutate nested dictionaries in place and
`_replace_flatten_key` duplicates the *object* with the shallow
`copy(self)`, which copies attribute references only.  The heap model makes
those references explicit: a `Heap` is a list of dictionary objects indexed
by address, a value is a scalar or a reference to an address, and an
`EnvDict` instance holds the addresses of its two internal mappings. -/

/-- A Python value as seen by the heap model: scalars, `None`, or a
reference to a dictionary object living in the heap. -/
inductive HVal where
  | hstr (s : String)
  | hint (n : Int)
  | hbool (b : Bool)
  | hnone
  | href (a : Nat)
deriving DecidableEq, Repr

/-- A dictionary object: ordered association list with string keys. -/
abbrev HDict := List (String × HVal)

/-- The heap: dictionary objects indexed by address (list position). -/
abbrev Heap := List HDict

/-- `d.get(k)` / `d[k]` on a heap-model dict (first occurrence). -/
def dGet : HDict → String → Option HVal
  | [], _ => none
  | (k, v) :: rest, key => if k = key then some v else dGet rest key

/-- `d[k] = v` on a heap-model dict: replace the first occurrence in place,
else append. -/
def dSet : HDict → String → HVal → HDict
  | [], key, v => [(key, v)]
  | (k, w) :: rest, key, v =>
      if k = key then (k, v) :: rest else (k, w) :: dSet rest key v

/-- `dict_to_edit.get(key_to_edit) is None`: true when the key is absent or
its value is `None`. -/
def pyIsNoneH : Option HVal → Bool
  | none => true
  | some .hnone => true
  | some _ => false

/-- An `EnvDict` object in the heap model: the addresses of
`self._preprocessed` and `self._data`, and the (immutable) placeholder
table of `self._expander`. -/
structure EnvStH where
  preAddr : Nat
  dataAddr : Nat
  tbl : List (String × String)
deriving DecidableEq, Repr

/-- Modelled from the spec: `expand_raw_value` applied to a single override
value (repository module `ploomber/env/expand.py`, not under `src/`):
strings have their placeholder tokens substituted against the fixed table,
other values pass through. -/
def expandRawValueH (tbl : List (String × String)) (v : HVal)
    (ks : List String) : Except PyErr HVal :=
  match v with
  | .hstr s =>
      match expandString tbl s with
      | .ok s2 => .ok (.hstr s2)
      | .error tok =>
          .error (.valueError ("Error resolving placeholder " ++ tok
            ++ " at key path " ++ String.intercalate "." ks))
  | v => .ok v

/-- The descent loop of `_replace_value` (lines 183-186):
`for e in keys_to_final_dict: dict_to_edit = dict_to_edit[e]`.  A missing
key raises `KeyError`; indexing a non-dict value raises `TypeError`; a
dangling address is a model artifact that cannot arise from Python states
and is reported as a `TypeError`. -/
def descend (h : Heap) : Nat → List String → Except PyErr Nat
  | a, [] => .ok a
  | a, k :: ks =>
      match h[a]? with
      | none => .error (.typeError "dangling address")
      | some d =>
          match dGet d k with
          | none => .error (.keyError k)
          | some (.href a2) => descend h a2 ks
          | some _ => .error (.typeError "object is not subscriptable")

/-- `EnvDict._replace_value(value, keys_all)` (lines 172-194), with the heap
threaded through: take the last key (`keys_all[-1]` raises `IndexError` on
an empty list), descend along the other keys, raise `KeyError` when
`dict_to_edit.get(key_to_edit) is None`, else assign the expansion of the
value in place. -/
def replaceValue (st : EnvStH) (value : HVal) (keysAll : List String)
    (h : Heap) : Except PyErr Unit × Heap :=
  match keysAll.getLast? with
  | none => (.error .indexError, h)
  | some keyToEdit =>
      match descend h st.dataAddr keysAll.dropLast with
      | .error e => (.error e, h)
      | .ok a =>
          match h[a]? with
          | none => (.error (.typeError "dangling address"), h)
          | some d =>
              if pyIsNoneH (dGet d keyToEdit) then
                (.error (.keyError ("Trying to replace key "
                  ++ String.intercalate "." keysAll
                  ++ " in env, but it does not exist")), h)
              else
                match expandRawValueH st.tbl value keysAll with
                | .error e => (.error e, h)
                | .ok v2 => (.ok (), h.set a (dSet d keyToEdit v2))

/-- `key_flatten.split('__')` (line 210): split on the double-underscore
separator, leftmost-first, never returning an empty list. -/
def splitDunderAux : List Char → List Char → List (List Char)
  | [], acc => [acc.reverse]
  | '_' :: '_' :: rest, acc => acc.reverse :: splitDunderAux rest []
  | c :: rest, acc => splitDunderAux rest (c :: acc)

/-- String-level wrapper of `splitDunderAux`. -/
def splitDunder (s : String) : List String :=
  (splitDunderAux s.toList []).map (fun cs => String.mk cs)

/-- `EnvDict._inplace_replace_flatten_key(value, key_flatten)` (lines
196-216): split the flattened key, require the first segment to be the
literal `env` (else `ValueError`), and delegate the remaining segments to
`_replace_value`. -/
def inplaceReplaceFlattenKey (st : EnvStH) (value : HVal)
    (keyFlatten : String) (h : Heap) : Except PyErr Unit × Heap :=
  match splitDunder keyFlatten with
  | p0 :: restParts =>
      if p0 = "env" then replaceValue st value restParts h
      else (.error (.valueError "keys_flatten must start with env__"), h)
  | [] => (.error .indexError, h)

/-- `EnvDict._replace_flatten_key(value, key_flatten)` (lines 218-221):
`obj = copy(self)` is a *shallow* copy, so the new object's attributes are
the same references — in the model, the very same addresses — and the
in-place replacement then runs against the shared heap objects. -/
def replaceFlattenKey (st : EnvStH) (value : HVal) (keyFlatten : String)
    (h : Heap) : Except PyErr EnvStH × Heap :=
  let obj := st
  match inplaceReplaceFlattenKey obj value keyFlatten h with
  | (.ok _, h2) => (.ok obj, h2)
  | (.error e, h2) => (.error e, h2)

/-- `EnvDict._inplace_replace_flatten_keys(to_replace)` (lines 223-229):
each entry applied in order, stopping at the first failure. -/
def inplaceReplaceFlattenKeys (st : EnvStH) :
    List (String × HVal) → Heap → Except PyErr Unit × Heap
  | [], h => (.ok (), h)
  | (k, v) :: rest, h =>
      match inplaceReplaceFlattenKey st v k h with
      | (.ok _, h2) => inplaceReplaceFlattenKeys st rest h2
      | (.error e, h2) => (.error e, h2)

/-- `EnvDict._replace_flatten_keys(to_replace)` (lines 231-234): shallow
copy, then the in-place bulk replacement. -/
def replaceFlattenKeys (st : EnvStH) (toReplace : List (String × HVal))
    (h : Heap) : Except PyErr EnvStH × Heap :=
  let obj := st
  match inplaceReplaceFlattenKeys obj toReplace h with
  | (.ok _, h2) => (.ok obj, h2)
  | (.error e, h2) => (.error e, h2)

/-- `EnvDict.__setitem__(key, value)` (lines 155-156):
`self._data[key] = value`, an in-place write into the receiver's expanded
mapping. -/
def envSetItem (st : EnvStH) (h : Heap) (key : String) (value : HVal) :
    Heap :=
  match h[st.dataAddr]? with
  | none => h
  | some d => h.set st.dataAddr (dSet d key value)

/-- The heap-model counterpart of `FrozenJSON`: a read-only wrapper around
a stored value (possibly a reference). -/
structure FrozenJSONH where
  wrapped : HVal
deriving DecidableEq, Repr

/-- Indexing a wrapped reference navigates into the referenced dictionary
(diagnostic messages are modelled in full in the value model). -/
def FrozenJSONH.getKey (h : Heap) (f : FrozenJSONH) (k : String) :
    Except PyErr FrozenJSONH :=
  match f.wrapped with
  | .href a =>
      match h[a]? with
      | none => .error (.typeError "dangling address")
      | some d =>
          match dGet d k with
          | some v => .ok ⟨v⟩
          | none => .error (.keyError k)
  | _ => .error (.typeError "object is not subscriptable")

/-- `EnvDict._getitem` in the heap model: preprocessed mapping first, then
the expanded data, `KeyError` when absent from both. -/
def envGetItemH (st : EnvStH) (h : Heap) (key : String) :
    Except PyErr FrozenJSONH :=
  match h[st.preAddr]? with
  | none => .error (.typeError "dangling address")
  | some pre =>
      match dGet pre key with
      | some v => .ok ⟨v⟩
      | none =>
          match h[st.dataAddr]? with
          | none => .error (.typeError "dangling address")
          | some d =>
              match dGet d key with
              | some v => .ok ⟨v⟩
              | none => .error (.keyError ("object has no key " ++ key))

/-- `obj[k0][k1]...`: a chained lookup through the wrapped views, as in
`obj.get(path)` of the override round-trip scenarios. -/
def envGetPath (st : EnvStH) (h : Heap) : List String →
    Except PyErr FrozenJSONH
  | [] => .error (.keyError "empty path")
  | k :: ks =>
      ks.foldl (fun acc k2 => acc.bind (fun f => f.getKey h k2))
        (envGetItemH st h k)

/-- The exact condition under which `_replace_value` raises `KeyError`:
the last key taken off the path, the descent along the other keys reaches a
missing key (all earlier steps going through dictionaries), or the descent
succeeds and the final dictionary holds the last key absent-or-`None`. -/
def keyNotFoundCond (h : Heap) (dataAddr : Nat) (keysAll : List String) :
    Bool :=
  match keysAll.getLast? with
  | none => false
  | some keyToEdit =>
      match descend h dataAddr keysAll.dropLast with
      | .error (.keyError _) => true
      | .error _ => false
      | .ok a =>
          match h[a]? with
          | none => false
          | some d => pyIsNoneH (dGet d keyToEdit)

/-! ## Helper lemmas -/

/-- Left-biased choice on optional values (`x if x is not None else y`). -/
def optOr (x y : Option PVal) : Option PVal :=
  match x with
  | some v => some v
  | none => y

theorem dGet_dSet_self (d : HDict) (k : String) (v : HVal) :
    dGet (dSet d k v) k = some v := by
  induction d with
  | nil => simp [dSet, dGet]
  | cons kv rest ih =>
      obtain ⟨k2, w⟩ := kv
      by_cases h : k2 = k
      · simp [dSet, h, dGet]
      · simp [dSet, h, dGet, ih]

theorem dGet_dSet_ne (d : HDict) (k : String) (v : HVal) (k2 : String)
    (h : k2 ≠ k) : dGet (dSet d k v) k2 = dGet d k2 := by
  have hk : ¬(k = k2) := fun hh => h hh.symm
  induction d with
  | nil => simp [dSet, dGet, hk]
  | cons kv rest ih =>
      obtain ⟨k3, w⟩ := kv
      by_cases h3 : k3 = k
      · subst h3
        simp [dSet, dGet, hk]
      · simp [dSet, dGet, h3, ih]

theorem dSet_map_fst_of_get (d : HDict) (k : String) (v w : HVal)
    (h : dGet d k = some w) :
    (dSet d k v).map Prod.fst = d.map Prod.fst := by
  induction d with
  | nil => simp [dGet] at h
  | cons kv rest ih =>
      obtain ⟨k2, u⟩ := kv
      by_cases h2 : k2 = k
      · simp [dSet, h2]
      · simp only [dGet, if_neg h2] at h
        simp [dSet, h2, ih h]

theorem hset_getElem_self (h : Heap) (a : Nat) (d d2 : HDict)
    (hd : h[a]? = some d) : (h.set a d2)[a]? = some d2 := by
  have hlen : a < h.length := by
    by_contra hc
    push_neg at hc
    rw [List.getElem?_eq_none hc] at hd
    exact Option.noConfusion hd
  exact List.getElem?_set_self hlen

theorem expandRawValueH_ne_keyError (tbl : List (String × String))
    (v : HVal) (ks : List String) (m : String) :
    expandRawValueH tbl v ks ≠ .error (.keyError m) := by
  cases v with
  | hstr s =>
      unfold expandRawValueH
      cases h : expandString tbl s with
      | ok s2 => simp [h]
      | error tok => simp [h]
  | hint n => simp [expandRawValueH]
  | hbool b => simp [expandRawValueH]
  | hnone => simp [expandRawValueH]
  | href a => simp [expandRawValueH]

theorem pGet_pSet_self : ∀ (d : PDict) (k : String) (v : PVal),
    pGet (pSet d k v) k = some v
  | .nil, k, v => by simp [pSet, pGet]
  | .cons k2 w rest, k, v => by
      by_cases h : k2 = k
      · simp [pSet, h, pGet]
      · simp only [pSet, if_neg h, pGet]
        exact pGet_pSet_self rest k v

theorem pGet_pSet_ne : ∀ (d : PDict) (k : String) (v : PVal) (k2 : String),
    k2 ≠ k → pGet (pSet d k v) k2 = pGet d k2
  | .nil, k, v, k2, h => by
      have hk : ¬(k = k2) := fun hh => h hh.symm
      simp [pSet, pGet, hk]
  | .cons k3 w rest, k, v, k2, h => by
      have hk : ¬(k = k2) := fun hh => h hh.symm
      by_cases h3 : k3 = k
      · subst h3
        simp [pSet, pGet, hk]
      · simp [pSet, pGet, h3, pGet_pSet_ne rest k v k2 h]

theorem pGet_none_of_not_mem : ∀ (d : PDict) (k : String),
    k ∉ pKeys d → pGet d k = none
  | .nil, _, _ => rfl
  | .cons k2 v rest, k, h => by
      simp only [pKeys, List.mem_cons, not_or] at h
      have hk : ¬(k2 = k) := fun hh => h.1 hh.symm
      simp only [pGet, if_neg hk]
      exact pGet_none_of_not_mem rest k h.2

theorem pGet_pyMerge : ∀ (b a : PDict) (k : String),
    (pKeys b).Nodup → pGet (pyMerge a b) k = optOr (pGet b k) (pGet a k)
  | .nil, a, k, _ => by simp [pyMerge, pGet, optOr]
  | .cons kb vb rest, a, k, hnd => by
      have hnd2 : (pKeys rest).Nodup := by
        simpa [pKeys] using (List.nodup_cons.mp (by simpa [pKeys] using hnd)).2
      have hkb : kb ∉ pKeys rest :=
        (List.nodup_cons.mp (by simpa [pKeys] using hnd)).1
      show pGet (pyMerge (pSet a kb vb) rest) k = _
      rw [pGet_pyMerge rest (pSet a kb vb) k hnd2]
      by_cases h : kb = k
      · subst h
        rw [pGet_none_of_not_mem rest kb hkb, pGet_pSet_self]
        simp [pGet, optOr]
      · rw [pGet_pSet_ne a kb vb k (fun hh => h hh.symm)]
        simp [pGet, if_neg h, optOr]

/-! ## Concrete fixtures -/

/-- A concrete environment: user `alice`, working directory `/cwd`, no
project root, accepting validator, empty filesystem, no modules. -/
def psA : Params :=
  ⟨"alice", "/cwd", none, fun _ => true, fun _ => false, fun _ => false,
    fun _ => none⟩

/-- A second concrete environment differing from `psA` everywhere: user
`bob`, working directory `/tmp`, a discoverable project root, accepting
validator, a filesystem on which every path exists as a file, and module
resolution that always succeeds. -/
def psB : Params :=
  ⟨"bob", "/tmp", some "/repo", fun _ => true, fun _ => true, fun _ => true,
    fun s => some ("/site/" ++ s ++ "/init.py")⟩

/-- A concrete environment whose validator rejects every mapping. -/
def psC : Params :=
  ⟨"alice", "/cwd", none, fun _ => false, fun _ => false, fun _ => false,
    fun _ => none⟩

/-- The raw mapping `\x7b"a": \x7b"b": 1\x7d, "_module":
"\x7b\x7bhere\x7d\x7d"\x7d` of the spec's scenario. -/
def rawC4 : PDict :=
  .cons "a" (.pdict (.cons "b" (.pint 1) .nil))
    (.cons "_module" (.pstr herePlaceholder) .nil)

/-- A constructed `EnvDict` state whose preprocessed mapping holds
`_module` and whose data also holds a (shadowed) `_module` plus `a`. -/
def stW : EnvSt :=
  ⟨.cons "_module" (.ppath "/proj") .nil,
   .cons "_module" (.pstr "shadowed") (.cons "a" (.pint 1) .nil)⟩

/-- A concrete environment whose filesystem has every path existing as a
directory. -/
def psD : Params :=
  ⟨"alice", "/cwd", none, fun _ => true, fun _ => true, fun _ => false,
    fun _ => none⟩

/-- A concrete environment with an empty filesystem but successful module
resolution. -/
def psE : Params :=
  ⟨"alice", "/cwd", none, fun _ => true, fun _ => false, fun _ => false,
    fun s => some ("/site/" ++ s ++ "/init.py")⟩

/-! ## Claims -/

/-- C1: the claim says every override operation returns a new copy and
leaves the receiver unchanged (`obj1.get(path)` keeps its pre-override
value).  The code violates this: `_replace_flatten_key` duplicates the
object with the shallow `copy(self)`, so both objects hold the same
mapping references and the in-place replacement is visible through the
receiver.  On `\x7b"a": \x7b"b": 1\x7d\x7d`, after
`obj2 = obj1._replace_flatten_key(2, "env__a__b")` the receiver `obj1`
reads `2` at path `a.b` where it read `1` before. -/
theorem c1_override_mutates_receiver :
    replaceFlattenKey ⟨0, 1, []⟩ (.hint 2) "env__a__b"
        [[], [("a", .href 2)], [("b", .hint 1)]]
      = (.ok ⟨0, 1, []⟩, [[], [("a", .href 2)], [("b", .hint 2)]])
    ∧ envGetPath ⟨0, 1, []⟩ [[], [("a", .href 2)], [("b", .hint 1)]]
        ["a", "b"] = .ok ⟨.hint 1⟩
    ∧ envGetPath ⟨0, 1, []⟩ [[], [("a", .href 2)], [("b", .hint 2)]]
        ["a", "b"] = .ok ⟨.hint 2⟩ :=
  ⟨rfl, rfl, rfl⟩

/-- C3: a flattened key whose first double-underscore segment is not the
literal `env` makes both the in-place and the copying variant fail with the
`ValueError` of line 213 and leave the heap untouched; when the first
segment is `env`, the remaining segments are handed to `_replace_value` as
the key path. -/
theorem c3_flatten_key_guard (st : EnvStH) (v : HVal) (kf : String)
    (h : Heap) (p0 : String) (restParts : List String)
    (hsplit : splitDunder kf = p0 :: restParts) :
    (p0 ≠ "env" →
      inplaceReplaceFlattenKey st v kf h
        = (.error (.valueError "keys_flatten must start with env__"), h)
      ∧ replaceFlattenKey st v kf h
        = (.error (.valueError "keys_flatten must start with env__"), h))
    ∧ (p0 = "env" →
        inplaceReplaceFlattenKey st v kf h = replaceValue st v restParts h) := by
  constructor
  · intro hne
    have h1 : inplaceReplaceFlattenKey st v kf h
        = (.error (.valueError "keys_flatten must start with env__"), h) := by
      unfold inplaceReplaceFlattenKey
      rw [hsplit]
      simp [hne]
    refine ⟨h1, ?_⟩
    unfold replaceFlattenKey
    simp only [h1]
  · intro he
    subst he
    unfold inplaceReplaceFlattenKey
    rw [hsplit]
    simp

/-- Witness for C3 at the concrete keys `x__a` (wrong prefix) and `env__a`
(correct prefix). -/
theorem c3_flatten_key_guard_witness :
    (inplaceReplaceFlattenKey ⟨0, 1, []⟩ (.hint 2) "x__a"
        [[], [("a", .hint 1)]]
      = (.error (.valueError "keys_flatten must start with env__"),
         [[], [("a", .hint 1)]])
    ∧ replaceFlattenKey ⟨0, 1, []⟩ (.hint 2) "x__a" [[], [("a", .hint 1)]]
      = (.error (.valueError "keys_flatten must start with env__"),
         [[], [("a", .hint 1)]]))
    ∧ inplaceReplaceFlattenKey ⟨0, 1, []⟩ (.hint 2) "env__a"
        [[], [("a", .hint 1)]]
      = replaceValue ⟨0, 1, []⟩ (.hint 2) ["a"] [[], [("a", .hint 1)]] :=
  ⟨(c3_flatten_key_guard ⟨0, 1, []⟩ (.hint 2) "x__a" [[], [("a", .hint 1)]]
      "x" ["a"] rfl).1 (by decide),
   (c3_flatten_key_guard ⟨0, 1, []⟩ (.hint 2) "env__a"
      [[], [("a", .hint 1)]] "env" ["a"] rfl).2 rfl⟩

/-- C5: when the `_module` key is absent or falsy, `raw_preprocess` returns
the empty mapping, and its result does not depend on the filesystem,
module-resolution or any other environment facts (no filesystem-existence
check and no module lookup can influence it). -/
theorem c5_no_module_preprocess_empty (ps ps2 : Params) (raw : PDict)
    (p p2 : Option String)
    (hm : pyTruthyOpt (pGet raw "_module") = false) :
    rawPreprocess ps raw p = .ok .nil
    ∧ rawPreprocess ps raw p = rawPreprocess ps2 raw p2 := by
  constructor
  · unfold rawPreprocess
    simp [hm]
  · unfold rawPreprocess
    simp [hm]

/-- Witness for C5: a mapping without `_module`, under two environments
that disagree on every external fact. -/
theorem c5_no_module_preprocess_empty_witness :
    rawPreprocess psA (.cons "a" (.pint 1) .nil) none = .ok .nil
    ∧ rawPreprocess psA (.cons "a" (.pint 1) .nil) none
      = rawPreprocess psB (.cons "a" (.pint 1) .nil) (some "/p/env.yaml") :=
  c5_no_module_preprocess_empty psA psB (.cons "a" (.pint 1) .nil) none
    (some "/p/env.yaml") rfl

/-- C7: `get(key)` consults the preprocessed mapping first, falls back to
the expanded data, and fails with `KeyError` exactly when the key is absent
from both; the error message embeds the truncated representation of the
dictionary produced by `__repr__`. -/
theorem c7_lookup_priority (st : EnvSt) (k : String) :
    (∀ v, pGet st.preprocessed k = some v → envGetItem st k = .ok ⟨v⟩)
    ∧ (∀ v, pGet st.preprocessed k = none → pGet st.data k = some v →
        envGetItem st k = .ok ⟨v⟩)
    ∧ (pGet st.preprocessed k = none → pGet st.data k = none →
        envGetItem st k
          = .error (.keyError (envDictRepr st.data
              ++ " object has no key " ++ k))) := by
  refine ⟨?_, ?_, ?_⟩
  · intro v hv
    simp [envGetItem, hv]
  · intro v hp hv
    simp [envGetItem, hp, hv]
  · intro hp hd
    simp [envGetItem, hp, hd]

/-- Witness for C7 on a state where `_module` is present in both mappings
(the preprocessed value wins), `a` only in the data, and `zz` in neither. -/
theorem c7_lookup_priority_witness :
    envGetItem stW "_module" = .ok ⟨.ppath "/proj"⟩
    ∧ envGetItem stW "a" = .ok ⟨.pint 1⟩
    ∧ envGetItem stW "zz"
      = .error (.keyError (envDictRepr stW.data
          ++ " object has no key " ++ "zz")) :=
  ⟨(c7_lookup_priority stW "_module").1 (.ppath "/proj") rfl,
   (c7_lookup_priority stW "a").2.1 (.pint 1) rfl rfl,
   (c7_lookup_priority stW "zz").2.2 rfl rfl⟩

/-- C9 counterexample: the claim says no operation exposed on the canonical
(non-copied) instance mutates its internal mappings, but `__setitem__`
(lines 155-156) writes straight into the receiver's expanded mapping: on
the canonical instance holding `\x7b"a": 1\x7d`, `env["a"] = 2` changes
what the same instance subsequently returns. -/
theorem c9_setitem_counterexample :
    envGetItemH ⟨0, 1, []⟩ [[], [("a", .hint 1)]] "a" = .ok ⟨.hint 1⟩
    ∧ envSetItem ⟨0, 1, []⟩ [[], [("a", .hint 1)]] "a" (.hint 2)
      = [[], [("a", .hint 2)]]
    ∧ envGetItemH ⟨0, 1, []⟩ [[], [("a", .hint 2)]] "a" = .ok ⟨.hint 2⟩ :=
  ⟨rfl, rfl, rfl⟩

/-- C9 amended: `EnvDict` does expose a direct mutation operation on the
canonical instance — `__setitem__` writes the key into the receiver's own
expanded mapping in place, and a subsequent lookup on the same instance
returns the new value (as a read-only wrapped view). -/
theorem c9_setitem_mutates_canonical (st : EnvStH) (h : Heap) (k : String)
    (v : HVal) (d pre : HDict) (hne : st.preAddr ≠ st.dataAddr)
    (hd : h[st.dataAddr]? = some d)
    (hpre : h[st.preAddr]? = some pre) (hk : dGet pre k = none) :
    envSetItem st h k v = h.set st.dataAddr (dSet d k v)
    ∧ envGetItemH st (envSetItem st h k v) k = .ok ⟨v⟩ := by
  have h1 : envSetItem st h k v = h.set st.dataAddr (dSet d k v) := by
    unfold envSetItem
    rw [hd]
  refine ⟨h1, ?_⟩
  rw [h1]
  unfold envGetItemH
  simp only [List.getElem?_set_ne (Ne.symm hne), hpre, hk,
    hset_getElem_self h st.dataAddr d (dSet d k v) hd, dGet_dSet_self]

/-- Witness for C9 amended at a concrete instance. -/
theorem c9_setitem_mutates_canonical_witness :
    envSetItem ⟨0, 1, []⟩ [[], [("a", .hint 1)]] "a" (.hint 2)
      = List.set [[], [("a", .hint 1)]] 1 (dSet [("a", .hint 1)] "a" (.hint 2))
    ∧ envGetItemH ⟨0, 1, []⟩
        (envSetItem ⟨0, 1, []⟩ [[], [("a", .hint 1)]] "a" (.hint 2)) "a"
      = .ok ⟨.hint 2⟩ :=
  c9_setitem_mutates_canonical ⟨0, 1, []⟩ [[], [("a", .hint 1)]] "a"
    (.hint 2) [("a", .hint 1)] [] (by decide) rfl rfl rfl

/-- C10: the flattened key consisting of exactly the literal `env` passes
the prefix check, leaving an empty key path, and `keys_all[-1]` then raises
an unhandled `IndexError` — not the `ValueError` of the prefix check and
not a `KeyError`. -/
theorem c10_env_alone_indexerror (st : EnvStH) (v : HVal) (h : Heap) :
    inplaceReplaceFlattenKey st v "env" h = (.error .indexError, h)
    ∧ replaceFlattenKey st v "env" h = (.error .indexError, h) :=
  ⟨rfl, rfl⟩

/-- C2 counterexample: the claim says `replace_at_path` fails with
`KeyNotFound` *iff* some key of the path does not already exist, but
`_replace_value` tests `dict_to_edit.get(key_to_edit) is None` (line 188),
so an *existing* final key whose current value is `None` also raises
`KeyError`: on expanded data `\x7b"a": None\x7d`, the path `["a"]` names an
existing key yet the override fails with `KeyError`. -/
theorem c2_counterexample :
    dGet [("a", .hnone)] "a" = some .hnone
    ∧ (replaceValue ⟨0, 1, []⟩ (.hint 2) ["a"] [[], [("a", .hnone)]]).1
      = .error (.keyError
          "Trying to replace key a in env, but it does not exist") :=
  ⟨rfl, rfl⟩

/-- C2 amended: for a non-empty key path, `_replace_value` fails with
`KeyError` iff the descent through the expanded mapping hits a missing
intermediate key, or reaches the final dictionary and the final key is
absent *or currently bound to `None`* (an intermediate value that is not a
dictionary raises `TypeError` instead, never `KeyError`); on success the
operation only replaces the value of an existing key — the key sets of
every dictionary in the heap are unchanged. -/
theorem c2_keynotfound_condition (st : EnvStH) (v : HVal)
    (keysAll : List String) (h : Heap) (_hne : keysAll ≠ []) :
    ((∃ m, (replaceValue st v keysAll h).1 = .error (.keyError m))
      ↔ keyNotFoundCond h st.dataAddr keysAll = true)
    ∧ ((replaceValue st v keysAll h).1 = .ok () →
        ∀ i : Nat, ((replaceValue st v keysAll h).2[i]?).map (List.map Prod.fst)
          = (h[i]?).map (List.map Prod.fst)) := by
  cases hl : keysAll.getLast? with
  | none =>
      have hrv : replaceValue st v keysAll h = (.error .indexError, h) := by
        simp [replaceValue, hl]
      have hkc : keyNotFoundCond h st.dataAddr keysAll = false := by
        simp [keyNotFoundCond, hl]
      constructor
      · simp [hrv, hkc]
      · simp [hrv]
  | some keyToEdit =>
      cases hdsc : descend h st.dataAddr keysAll.dropLast with
      | error e =>
          have hrv : replaceValue st v keysAll h = (.error e, h) := by
            simp [replaceValue, hl, hdsc]
          cases e with
          | keyError m =>
              have hkc : keyNotFoundCond h st.dataAddr keysAll = true := by
                simp [keyNotFoundCond, hl, hdsc]
              constructor
              · constructor
                · intro _
                  exact hkc
                · intro _
                  exact ⟨m, by simp [hrv]⟩
              · simp [hrv]
          | indexError =>
              have hkc : keyNotFoundCond h st.dataAddr keysAll = false := by
                simp [keyNotFoundCond, hl, hdsc]
              constructor
              · simp [hrv, hkc]
              · simp [hrv]
          | typeError m =>
              have hkc : keyNotFoundCond h st.dataAddr keysAll = false := by
                simp [keyNotFoundCond, hl, hdsc]
              constructor
              · simp [hrv, hkc]
              · simp [hrv]
          | valueError m =>
              have hkc : keyNotFoundCond h st.dataAddr keysAll = false := by
                simp [keyNotFoundCond, hl, hdsc]
              constructor
              · simp [hrv, hkc]
              · simp [hrv]
          | validationError =>
              have hkc : keyNotFoundCond h st.dataAddr keysAll = false := by
                simp [keyNotFoundCond, hl, hdsc]
              constructor
              · simp [hrv, hkc]
              · simp [hrv]
      | ok a =>
          cases hga : h[a]? with
          | none =>
              have hrv : replaceValue st v keysAll h
                  = (.error (.typeError "dangling address"), h) := by
                simp [replaceValue, hl, hdsc, hga]
              have hkc : keyNotFoundCond h st.dataAddr keysAll = false := by
                simp [keyNotFoundCond, hl, hdsc, hga]
              constructor
              · simp [hrv, hkc]
              · simp [hrv]
          | some d =>
              cases hn : pyIsNoneH (dGet d keyToEdit) with
              | true =>
                  have hrv : replaceValue st v keysAll h
                      = (.error (.keyError ("Trying to replace key "
                          ++ String.intercalate "." keysAll
                          ++ " in env, but it does not exist")), h) := by
                    simp [replaceValue, hl, hdsc, hga, hn]
                  have hkc : keyNotFoundCond h st.dataAddr keysAll
                      = true := by
                    simp [keyNotFoundCond, hl, hdsc, hga, hn]
                  constructor
                  · constructor
                    · intro _
                      exact hkc
                    · intro _
                      exact ⟨"Trying to replace key "
                        ++ String.intercalate "." keysAll
                        ++ " in env, but it does not exist",
                        by simp [hrv]⟩
                  · simp [hrv]
              | false =>
                  cases hex : expandRawValueH st.tbl v keysAll with
                  | error e =>
                      have hrv : replaceValue st v keysAll h
                          = (.error e, h) := by
                        simp [replaceValue, hl, hdsc, hga, hn, hex]
                      have hkc : keyNotFoundCond h st.dataAddr keysAll
                          = false := by
                        simp [keyNotFoundCond, hl, hdsc, hga, hn]
                      constructor
                      · constructor
                        · rintro ⟨m, hm⟩
                          rw [hrv] at hm
                          simp only [Prod.fst] at hm
                          cases hm2 : e with
                          | keyError m2 =>
                              exact absurd (hm2 ▸ hex)
                                (expandRawValueH_ne_keyError st.tbl v
                                  keysAll m2)
                          | indexError => simp [hm2] at hm
                          | typeError m2 => simp [hm2] at hm
                          | valueError m2 => simp [hm2] at hm
                          | validationError => simp [hm2] at hm
                        · intro hc
                          rw [hkc] at hc
                          exact absurd hc (by decide)
                      · simp [hrv]
                  | ok v2 =>
                      have hrv : replaceValue st v keysAll h
                          = (.ok (), h.set a (dSet d keyToEdit v2)) := by
                        simp [replaceValue, hl, hdsc, hga, hn, hex]
                      have hkc : keyNotFoundCond h st.dataAddr keysAll
                          = false := by
                        simp [keyNotFoundCond, hl, hdsc, hga, hn]
                      constructor
                      · simp [hrv, hkc]
                      · intro _ i
                        rw [hrv]
                        simp only [Prod.snd]
                        obtain ⟨w, hw⟩ : ∃ w, dGet d keyToEdit = some w := by
                          cases hq : dGet d keyToEdit with
                          | none => rw [hq] at hn; simp [pyIsNoneH] at hn
                          | some w => exact ⟨w, rfl⟩
                        by_cases hi : i = a
                        · subst hi
                          rw [hset_getElem_self h i d
                            (dSet d keyToEdit v2) hga, hga]
                          simp [dSet_map_fst_of_get d keyToEdit v2 w hw]
                        · rw [List.getElem?_set_ne
                            (fun hh => hi hh.symm)]

/-- Witness for C2 amended: the instantiated statement at a concrete
instance, heap and path. -/
theorem c2_keynotfound_condition_witness :
    ((∃ m, (replaceValue ⟨0, 1, []⟩ (.hint 5) ["a", "b"]
        [[], [("a", .href 2)], [("b", .hint 1)]]).1 = .error (.keyError m))
      ↔ keyNotFoundCond [[], [("a", .href 2)], [("b", .hint 1)]]
          (EnvStH.mk 0 1 []).dataAddr ["a", "b"] = true)
    ∧ ((replaceValue ⟨0, 1, []⟩ (.hint 5) ["a", "b"]
        [[], [("a", .href 2)], [("b", .hint 1)]]).1 = .ok () →
        ∀ i : Nat, (((replaceValue ⟨0, 1, []⟩ (.hint 5) ["a", "b"]
            [[], [("a", .href 2)], [("b", .hint 1)]]).2[i]?).map
              (List.map Prod.fst))
          = ((([[], [("a", .href 2)], [("b", .hint 1)]] : Heap)[i]?).map
              (List.map Prod.fst))) :=
  c2_keynotfound_condition ⟨0, 1, []⟩ (.hint 5) ["a", "b"]
    [[], [("a", .href 2)], [("b", .hint 1)]] (by decide)

end EnvDictModel

namespace EnvDictModel

/-- C4 counterexample: the claim says the in-memory mapping
`\x7b"a": \x7b"b": 1\x7d, "_module": "\x7b\x7bhere\x7d\x7d"\x7d` constructed
with base directory `/proj` succeeds and resolves `_module` to `/proj`.
It does not: `raw_preprocess` receives `self._path_to_env`, which is `None`
for a dict source (the caller's `path_to_here` plays no role there), so
construction fails with the `ValueError` of line 337. -/
theorem c4_dict_source_here_fails :
    envInit psA rawC4 none (some "/proj")
      = .error (.valueError
          "_module cannot be the here placeholder if not loaded from a file") :=
  rfl

/-- C4 amended: `_module == "\x7b\x7bhere\x7d\x7d"` resolves to the parent
directory of the *source file* and fails with `ConfigError` exactly when no
source file is available, regardless of the supplied base directory; the
spec's scenario holds once the mapping is loaded from `/proj/env.yaml`:
`get("_module")` returns `/proj` and `get("a")["b"]` returns `1`. -/
theorem c4_here_resolution (ps : Params) (raw : PDict)
    (hm : pGet raw "_module" = some (.pstr herePlaceholder)) :
    rawPreprocess ps raw none
      = .error (.valueError
          "_module cannot be the here placeholder if not loaded from a file")
    ∧ (∀ q, rawPreprocess ps raw (some q)
        = .ok (.cons "_module" (.ppath (parentDir q)) .nil))
    ∧ (envInit psA rawC4 (some "/proj/env.yaml") none).bind
        (fun st => envGetItem st "_module") = .ok ⟨.ppath "/proj"⟩
    ∧ (envInit psA rawC4 (some "/proj/env.yaml") none).bind
        (fun st => (envGetItem st "a").bind (fun f => f.getKey "b"))
      = .ok ⟨.pint 1⟩ := by
  have htr : pyTruthyOpt (some (PVal.pstr herePlaceholder)) = true := by
    decide
  refine ⟨?_, ?_, rfl, rfl⟩
  · unfold rawPreprocess
    rw [hm]
    simp [htr]
  · intro q
    unfold rawPreprocess
    rw [hm]
    simp [htr]

/-- Witness for C4 amended: both resolutions of the `here` token at a
concrete mapping (under the environment `psB`, whose filesystem facts are
shown to be irrelevant), and the file-loaded scenario lookups. -/
theorem c4_here_resolution_witness :
    rawPreprocess psB rawC4 none
      = .error (.valueError
          "_module cannot be the here placeholder if not loaded from a file")
    ∧ rawPreprocess psB rawC4 (some "/proj/env.yaml")
      = .ok (.cons "_module" (.ppath (parentDir "/proj/env.yaml")) .nil)
    ∧ (envInit psA rawC4 (some "/proj/env.yaml") none).bind
        (fun st => envGetItem st "_module") = .ok ⟨.ppath "/proj"⟩ :=
  ⟨(c4_here_resolution psB rawC4 rfl).1,
   (c4_here_resolution psB rawC4 rfl).2.1 "/proj/env.yaml",
   (c4_here_resolution psB rawC4 rfl).2.2.1⟩

/-- C6: for a string `_module` token other than the `here` placeholder:
an existing filesystem entry that is a file fails with `ConfigError`; an
existing directory is returned as the module path; a non-existing token is
looked up as a dotted module identifier, returning the directory containing
the module's defining file when found and failing with `ConfigError`
(`not a valid module nor a directory`) when not. -/
theorem c6_module_resolution (ps : Params) (raw : PDict) (p : Option String)
    (s : String) (hm : pGet raw "_module" = some (.pstr s))
    (hs0 : s ≠ "") (hsh : s ≠ herePlaceholder) :
    (ps.fsExists s = true → ps.fsIsFile s = true →
      rawPreprocess ps raw p
        = .error (.valueError ("Could not resolve _module " ++ s
            ++ ", expected a module or a directory but got a file")))
    ∧ (ps.fsExists s = true → ps.fsIsFile s = false →
        rawPreprocess ps raw p = .ok (.cons "_module" (.ppath s) .nil))
    ∧ (ps.fsExists s = false → ps.findSpec s = none →
        rawPreprocess ps raw p
          = .error (.valueError ("Could not resolve _module " ++ s
              ++ ", it is not a valid module nor a directory")))
    ∧ (∀ origin, ps.fsExists s = false → ps.findSpec s = some origin →
        rawPreprocess ps raw p
          = .ok (.cons "_module" (.ppath (parentDir origin)) .nil)) := by
  have htr : pyTruthyOpt (some (PVal.pstr s)) = true := by
    simp [pyTruthyOpt, pyTruthy, hs0]
  refine ⟨?_, ?_, ?_, ?_⟩
  · intro hex hf
    unfold rawPreprocess
    simp [htr, hm, hsh, asPathStr, resolveModuleToken, hex, hf]
  · intro hex hf
    unfold rawPreprocess
    simp [htr, hm, hsh, asPathStr, resolveModuleToken, hex, hf]
  · intro hex hf
    unfold rawPreprocess
    simp [htr, hm, hsh, asPathStr, resolveModuleToken, hex, hf]
  · intro origin hex hf
    unfold rawPreprocess
    simp [htr, hm, hsh, asPathStr, resolveModuleToken, hex, hf]

/-- Witness for C6: the four resolution outcomes at concrete tokens under
the concrete environments `psB` (all-files filesystem), `psD` (directory),
`psA` (nothing resolvable) and `psE` (module resolution succeeds). -/
theorem c6_module_resolution_witness :
    rawPreprocess psB (.cons "_module" (.pstr "/d") .nil) none
      = .error (.valueError ("Could not resolve _module " ++ "/d"
          ++ ", expected a module or a directory but got a file"))
    ∧ rawPreprocess psD (.cons "_module" (.pstr "/d") .nil) none
      = .ok (.cons "_module" (.ppath "/d") .nil)
    ∧ rawPreprocess psA (.cons "_module" (.pstr "mypkg") .nil) none
      = .error (.valueError ("Could not resolve _module " ++ "mypkg"
          ++ ", it is not a valid module nor a directory"))
    ∧ rawPreprocess psE (.cons "_module" (.pstr "mypkg") .nil) none
      = .ok (.cons "_module"
          (.ppath (parentDir ("/site/" ++ "mypkg" ++ "/init.py"))) .nil) :=
  ⟨(c6_module_resolution psB (.cons "_module" (.pstr "/d") .nil) none "/d"
      rfl (by decide) (by decide)).1 rfl rfl,
   (c6_module_resolution psD (.cons "_module" (.pstr "/d") .nil) none "/d"
      rfl (by decide) (by decide)).2.1 rfl rfl,
   (c6_module_resolution psA (.cons "_module" (.pstr "mypkg") .nil) none
      "mypkg" rfl (by decide) (by decide)).2.2.1 rfl rfl,
   (c6_module_resolution psE (.cons "_module" (.pstr "mypkg") .nil) none
      "mypkg" rfl (by decide) (by decide)).2.2.2
     ("/site/" ++ "mypkg" ++ "/init.py") rfl rfl⟩

/-- C8: the mapping handed to validation is `{**defaults, **raw}`: a raw
key always wins over the built-in of the same name; the built-in set has
`user` and `cwd` always, `root` iff a project root was discovered, `here`
iff a base directory was supplied; `user` and `cwd` are present in the
merged mapping; and a validator rejection surfaces as a validation failure
of construction (validation runs on the merged mapping). -/
theorem c8_default_merge (ps : Params) (raw : PDict)
    (pathToEnv pathToHere0 : Option String)
    (hnd : (pKeys raw).Nodup) :
    (∀ k, pGet (mergedRawData raw ps.rootOpt.isSome pathToHere0.isSome) k
        = optOr (pGet raw k)
            (pGet (defaultDict ps.rootOpt.isSome pathToHere0.isSome) k))
    ∧ (∀ rf ih : Bool, pHasKey (defaultDict rf ih) "user" = true
        ∧ pHasKey (defaultDict rf ih) "cwd" = true
        ∧ pHasKey (defaultDict rf ih) "root" = rf
        ∧ pHasKey (defaultDict rf ih) "here" = ih)
    ∧ pHasKey (mergedRawData raw ps.rootOpt.isSome pathToHere0.isSome)
        "user" = true
    ∧ pHasKey (mergedRawData raw ps.rootOpt.isSome pathToHere0.isSome)
        "cwd" = true
    ∧ (ps.validateOk (mergedRawData raw ps.rootOpt.isSome pathToHere0.isSome)
        = false →
        envInit ps raw pathToEnv pathToHere0 = .error .validationError) := by
  have hmg : ∀ k,
      pGet (mergedRawData raw ps.rootOpt.isSome pathToHere0.isSome) k
        = optOr (pGet raw k)
            (pGet (defaultDict ps.rootOpt.isSome pathToHere0.isSome) k) :=
    fun k =>
      pGet_pyMerge raw (defaultDict ps.rootOpt.isSome pathToHere0.isSome)
        k hnd
  have huser : ∀ rf ih : Bool,
      pGet (defaultDict rf ih) "user" = some (.pstr "\x7b\x7buser\x7d\x7d") :=
    fun rf ih => rfl
  have hcwd : ∀ rf ih : Bool,
      pGet (defaultDict rf ih) "cwd" = some (.pstr "\x7b\x7bcwd\x7d\x7d") :=
    fun rf ih => rfl
  refine ⟨hmg, ?_, ?_, ?_, ?_⟩
  · intro rf ih
    cases rf <;> cases ih <;> exact ⟨rfl, rfl, rfl, rfl⟩
  · unfold pHasKey
    rw [hmg "user", huser]
    cases pGet raw "user" <;> simp [optOr]
  · unfold pHasKey
    rw [hmg "cwd", hcwd]
    cases pGet raw "cwd" <;> simp [optOr]
  · intro hv
    unfold envInit
    simp [hv]

/-- Witness for C8: the raw key `root` overrides the built-in, and a
rejecting validator makes construction fail, at concrete inputs. -/
theorem c8_default_merge_witness :
    pGet (mergedRawData (.cons "root" (.pint 7) .nil) psB.rootOpt.isSome
        (none : Option String).isSome) "root"
      = optOr (pGet (.cons "root" (.pint 7) .nil) "root")
          (pGet (defaultDict psB.rootOpt.isSome
            (none : Option String).isSome) "root")
    ∧ envInit psC (.cons "a" (.pint 1) .nil) none none
      = .error .validationError :=
  ⟨(c8_default_merge psB (.cons "root" (.pint 7) .nil) none none
      (by decide)).1 "root",
   (c8_default_merge psC (.cons "a" (.pint 1) .nil) none none
      (by decide)).2.2.2.2 rfl⟩

end EnvDictModel
